import Mathlib

/-!
Verification of the Flickr app-unfurl sample (slackapi/sample-app-unfurls).

Shallow embedding of the repository's JavaScript sources:
* `lib/common.js`  — display bounds and `cloneAndCleanAttachment`
* `lib/flickr.js`  — `findBestImage` (the Best-Image Selector)
* `basic.js`       — `messageAttachmentFromLink` and the `link_shared`
                     unfurl-batch construction (`keyBy` / `mapValues` / `omit`)
* the two interactive variants — `messageAttachmentFromLink` with actions,
  `handlePhotoDetailsInteraction` and `handleInteractiveMessages`

Conventions of the embedding:
* JavaScript strings are Lean `String`; a JS "falsy" string is `""`.
* JS numbers that hold pixel dimensions or ratios are exact rationals `ℚ`
  (no IEEE rounding is modelled; all comparisons in the source are between
  a fixed ratio 400/500 and small integer quotients).
* Optional JS object keys are `Option`; an object literal that never gets a
  key assigned keeps the key `none`.
* External library calls that the source treats as opaque (`Date.toUTCString`,
  `JSON.stringify`, `JSON.parse`, the Flickr fetches) are parameters of the
  embedded functions.
-/

namespace Unfurls

/-! ### lib/common.js : display bounds -/

/-- `const maxWidth = 400` (lib/common.js). -/
def maxWidth : ℚ := 400

/-- `const maxHeight = 500` (lib/common.js). -/
def maxHeight : ℚ := 500

/-- `const idealAspectRatio = maxWidth / maxHeight` (lib/common.js). -/
def idealAspectRatio : ℚ := maxWidth / maxHeight

/-! ### lib/flickr.js : the Best-Image Selector -/

/-- One element of the `photoUrls` collection handed to `findBestImage`:
an image variant with a source URL and pixel dimensions. -/
structure PhotoUrl where
  source : String
  width : ℚ
  height : ℚ
deriving DecidableEq

/-- The two dimension names the selector can sort/compare by
(`prioritizedDimension` is the JS string `'width'` or `'height'`). -/
inductive Dim where
  | width
  | height
deriving DecidableEq

/-- `photo[prioritizedDimension]`: dynamic property read by dimension name. -/
def dimVal (d : Dim) (p : PhotoUrl) : ℚ :=
  match d with
  | .width => p.width
  | .height => p.height

/-- `const prioritizedDimension = (idealAspectRatio > aspectRatio) ? 'width' : 'height'`
where `aspectRatio = anyPhoto.width / anyPhoto.height`.

The embedding adds the conjunct `anyPhoto.height ≠ 0` to mirror IEEE
semantics of the JS division: when `height = 0` the JS quotient is
`Infinity` (or `NaN` for `0/0`), and `idealAspectRatio > aspectRatio` is
then false, so `'height'` is chosen; rational division by zero would
instead yield `0` and flip the branch. -/
def prioritizedDimension (anyPhoto : PhotoUrl) : Dim :=
  if anyPhoto.height ≠ 0 ∧ idealAspectRatio > anyPhoto.width / anyPhoto.height then
    .width
  else
    .height

/-- `const comparedDimensionValue = (prioritizedDimension === 'height') ? maxHeight : maxWidth`. -/
def comparedDimensionValue (d : Dim) : ℚ :=
  match d with
  | .height => maxHeight
  | .width => maxWidth

/-- The body of `findBestImage` after the sample was drawn: lodash `sortBy`
(a stable ascending sort by the prioritized dimension, embedded as
insertion sort, which produces the same stable order) followed by lodash
`find` (first match).  `anyPhoto` stands for the result of
`sample(photoUrls)`, which picks a random element of the collection. -/
def findBestImage (anyPhoto : PhotoUrl) (photoUrls : List PhotoUrl) : Option PhotoUrl :=
  let d := prioritizedDimension anyPhoto
  let bound := comparedDimensionValue d
  let sortedPhotos := photoUrls.insertionSort (fun a b => dimVal d a ≤ dimVal d b)
  sortedPhotos.find? (fun photo => decide (bound < dimVal d photo))

/-- The whole JS call `findBestImage(photoUrls)` including the sampling step.
`sampleIdx` resolves the randomness of `lodash.sample`, which returns the
element at a random valid index, or `undefined` for an empty collection.
The outer `Option` is normal termination: `none` means the computation
faults (reading `.width`/`.height` of `undefined`), `some r` means it
returns `r` (where `r = none` is the JS `undefined` result of `find`). -/
def findBestImageRun (sampleIdx : ℕ) (photoUrls : List PhotoUrl) : Option (Option PhotoUrl) :=
  match photoUrls.get? sampleIdx with
  | none => none
  | some anyPhoto => some (findBestImage anyPhoto photoUrls)

/-! Helper lemmas about `find?` on a sorted list. -/

theorem find?_is_min_of_sorted {α : Type} {key : α → ℚ} {p : α → Bool} :
    ∀ {l : List α}, l.Sorted (fun a b => key a ≤ key b) → ∀ {r : α}, l.find? p = some r →
      ∀ {q : α}, q ∈ l → p q = true → key r ≤ key q := by
  intro l
  induction l with
  | nil => intro _ r hr; simp [List.find?] at hr
  | cons a t ih =>
    intro hs r hr q hq hpq
    rw [List.sorted_cons] at hs
    rw [List.find?] at hr
    cases hpa : p a with
    | true =>
      rw [hpa] at hr
      simp only [Option.some.injEq] at hr
      subst hr
      rcases List.mem_cons.mp hq with h | h
      · subst h; exact le_refl _
      · exact hs.1 q h
    | false =>
      rw [hpa] at hr
      rcases List.mem_cons.mp hq with h | h
      · subst h; rw [hpa] at hpq; exact absurd hpq (by simp)
      · exact ih hs.2 hr h hpq

/-- The sort relation used by `findBestImage` is total and transitive
(needed for Mathlib's `sorted_insertionSort`). -/
theorem dim_le_total (d : Dim) : ∀ a b : PhotoUrl, dimVal d a ≤ dimVal d b ∨ dimVal d b ≤ dimVal d a :=
  fun a b => le_total (dimVal d a) (dimVal d b)

/-- **C1.** The Best-Image Selector: with the sampled variant `anyPhoto`
drawn from the (hence non-empty) collection, the binding dimension is
`width` exactly when the target ratio 400/500 strictly exceeds the sample's
own width/height ratio (for a sample of positive height), and the result is
characterized as: `none` exactly when no variant strictly exceeds the bound
on the binding dimension, and otherwise a variant of the collection that
strictly exceeds the bound and whose binding-dimension value is minimal
among all variants exceeding it (the first such variant in ascending
order). -/
theorem findBestImage_spec (photoUrls : List PhotoUrl) (anyPhoto : PhotoUrl)
    (_hmem : anyPhoto ∈ photoUrls) :
    (0 < anyPhoto.height →
      (prioritizedDimension anyPhoto = .width ↔
        idealAspectRatio > anyPhoto.width / anyPhoto.height)) ∧
    (findBestImage anyPhoto photoUrls = none ↔
      ∀ p ∈ photoUrls,
        dimVal (prioritizedDimension anyPhoto) p ≤
          comparedDimensionValue (prioritizedDimension anyPhoto)) ∧
    (∀ r, findBestImage anyPhoto photoUrls = some r →
      r ∈ photoUrls ∧
      comparedDimensionValue (prioritizedDimension anyPhoto) <
        dimVal (prioritizedDimension anyPhoto) r ∧
      ∀ q ∈ photoUrls,
        comparedDimensionValue (prioritizedDimension anyPhoto) <
          dimVal (prioritizedDimension anyPhoto) q →
        dimVal (prioritizedDimension anyPhoto) r ≤
          dimVal (prioritizedDimension anyPhoto) q) := by
  set d := prioritizedDimension anyPhoto with hd
  set bound := comparedDimensionValue d with hb
  haveI : IsTotal PhotoUrl (fun a b => dimVal d a ≤ dimVal d b) := ⟨dim_le_total d⟩
  haveI : IsTrans PhotoUrl (fun a b => dimVal d a ≤ dimVal d b) :=
    ⟨fun _ _ _ h1 h2 => le_trans h1 h2⟩
  have hperm := List.perm_insertionSort (fun a b => dimVal d a ≤ dimVal d b) photoUrls
  have hsorted := List.sorted_insertionSort (fun a b => dimVal d a ≤ dimVal d b) photoUrls
  refine ⟨?_, ?_, ?_⟩
  · intro hpos
    rw [hd]
    show (if anyPhoto.height ≠ 0 ∧ idealAspectRatio > anyPhoto.width / anyPhoto.height then
        Dim.width else Dim.height) = Dim.width ↔ _
    by_cases hc : idealAspectRatio > anyPhoto.width / anyPhoto.height
    · rw [if_pos ⟨ne_of_gt hpos, hc⟩]
      exact ⟨fun _ => hc, fun _ => rfl⟩
    · rw [if_neg (fun hand => hc hand.2)]
      exact ⟨fun h => absurd h (by decide), fun h => absurd h hc⟩
  · rw [findBestImage, List.find?_eq_none]
    constructor
    · intro h p hp
      have := h p (hperm.mem_iff.mpr hp)
      simpa using this
    · intro h p hp
      have := h p (hperm.mem_iff.mp hp)
      simpa using this
  · intro r hr
    rw [findBestImage] at hr
    have hmemr : r ∈ photoUrls := hperm.mem_iff.mp (List.mem_of_find?_eq_some hr)
    have hex : bound < dimVal d r := by
      have := List.find?_some hr
      simpa using this
    refine ⟨hmemr, hex, ?_⟩
    intro q hq hqex
    exact find?_is_min_of_sorted hsorted hr (hperm.mem_iff.mpr hq) (by simpa using hqex)

/-- Witness for `findBestImage_spec` at a concrete input: variants
800×600, 300×200, 500×900 with the 800×600 variant sampled (target ratio
0.8 < 4/3, so height binds, bound 500; sorted by height the variants are
200, 600, 900 and the first exceeding 500 is the 800×600 one). -/
theorem findBestImage_spec_witness :
    (⟨"a", 800, 600⟩ : PhotoUrl) ∈
        [(⟨"a", 800, 600⟩ : PhotoUrl), ⟨"b", 300, 200⟩, ⟨"c", 500, 900⟩] ∧
      findBestImage ⟨"a", 800, 600⟩
        [(⟨"a", 800, 600⟩ : PhotoUrl), ⟨"b", 300, 200⟩, ⟨"c", 500, 900⟩] =
        some ⟨"a", 800, 600⟩ ∧
      ∀ r, findBestImage ⟨"a", 800, 600⟩
        [(⟨"a", 800, 600⟩ : PhotoUrl), ⟨"b", 300, 200⟩, ⟨"c", 500, 900⟩] = some r →
        r ∈ [(⟨"a", 800, 600⟩ : PhotoUrl), ⟨"b", 300, 200⟩, ⟨"c", 500, 900⟩] := by
  refine ⟨List.mem_cons_self _ _, ?_, ?_⟩
  · norm_num [findBestImage, prioritizedDimension, idealAspectRatio, maxWidth, maxHeight,
      comparedDimensionValue, dimVal, List.insertionSort, List.orderedInsert, List.find?]
  · intro r hr
    exact ((findBestImage_spec
      [(⟨"a", 800, 600⟩ : PhotoUrl), ⟨"b", 300, 200⟩, ⟨"c", 500, 900⟩]
      ⟨"a", 800, 600⟩ (List.mem_cons_self _ _)).2.2 r hr).1

/-- **C10.** Partiality of the selector: on the empty collection the JS
computation faults (for every outcome of the random sample, `sample`
yields `undefined` and the subsequent `.width` read throws), while on a
non-empty collection every valid sample outcome completes normally. -/
theorem findBestImageRun_partiality :
    (∀ sampleIdx : ℕ, findBestImageRun sampleIdx [] = none) ∧
    (∀ (photoUrls : List PhotoUrl), photoUrls ≠ [] →
      ∀ sampleIdx : ℕ, sampleIdx < photoUrls.length →
        ∃ res, findBestImageRun sampleIdx photoUrls = some res) := by
  constructor
  · intro i; rfl
  · intro photoUrls _ i hi
    rw [findBestImageRun]
    rcases List.get?_eq_get hi with h
    rw [h]
    exact ⟨_, rfl⟩

/-- Witness for `findBestImageRun_partiality`: the empty collection faults at
sample index 0, and the singleton collection (one 800×600 variant) runs to
completion at sample index 0. -/
theorem findBestImageRun_partiality_witness :
    findBestImageRun 0 [] = none ∧
      ∃ res, findBestImageRun 0 [(⟨"a", 800, 600⟩ : PhotoUrl)] = some res :=
  ⟨findBestImageRun_partiality.1 0,
    findBestImageRun_partiality.2 [(⟨"a", 800, 600⟩ : PhotoUrl)] (List.cons_ne_nil _ _) 0
      (by simp)⟩

/-! ### Data model: links, photo records and message attachments -/

/-- A Slack shared link (one entry of `event.links`). -/
structure SharedLink where
  url : String
deriving DecidableEq

/-- `photo.owner` as delivered by `flickr-photo-info`.  A missing owner
name or username is the empty string (JS falsy). -/
structure PhotoOwner where
  name : String
  username : String
  iconSmall : String
  url : String
deriving DecidableEq

/-- One tag of `photo.tags` (only the `raw` property is read). -/
structure FlickrTag where
  raw : String
deriving DecidableEq

/-- An album (photoset) record: the source reads `title` and `url`. -/
structure FlickrSet where
  title : String
  url : String
deriving DecidableEq

/-- A group (pool) record: the source reads `title` and `url`. -/
structure FlickrPool where
  title : String
  url : String
deriving DecidableEq

/-- The aggregated photo record produced by `getFlickrUrlData`: photo info
merged with the chosen image URL and (in the interactive variant) the
`sets` and `pools` contexts.  `description` is `""` when absent (JS falsy);
`takenTS`/`postTS` are absent (`none`) or a numeric timestamp. -/
structure FlickrPhoto where
  id : String
  title : String
  description : String
  owner : PhotoOwner
  tags : List FlickrTag
  takenTS : Option ℕ
  postTS : Option ℕ
  url : String
  imageUrl : String
  sets : List FlickrSet
  pools : List FlickrPool
deriving DecidableEq

/-- JS truthiness of a possibly-absent numeric timestamp: `undefined` and
`0` are falsy, every other number is truthy. -/
def jsTruthyTS (o : Option ℕ) : Bool :=
  o.getD 0 != 0

/-- One entry of an attachment's `fields` array. -/
structure AField where
  title : String
  value : String
deriving DecidableEq

/-- One entry of an attachment's `actions` array (an interactive button). -/
structure AAction where
  text : String
  name : String
  type : String
  value : String
deriving DecidableEq

/-- A Slack message attachment as this app builds it.  `url` is the extra
property carried to support keying the unfurl batch; `Option` keys model
JS object keys that may be absent. -/
structure Attachment where
  fallback : String
  color : String
  title : String
  title_link : String
  image_url : String
  url : Option String
  author_name : Option String := none
  author_icon : Option String := none
  author_link : Option String := none
  fields : Option (List AField) := none
  callback_id : Option String := none
  actions : Option (List AAction) := none
deriving DecidableEq

/-- JS `Array.prototype.join(sep)` on a list of strings. -/
def joinSep (sep : String) : List String → String
  | [] => ""
  | [a] => a
  | a :: b :: rest => a ++ sep ++ joinSep sep (b :: rest)

/-! ### basic.js : `messageAttachmentFromLink`, block by block -/

/-- The "basic attachment" object literal at the top of
`messageAttachmentFromLink` (identical in all three variants). -/
def baseAttachment (linkUrl : String) (photo : FlickrPhoto) : Attachment where
  fallback := photo.title ++ (if photo.description ≠ "" then ": " ++ photo.description else "")
  color := "#ff0084"
  title := photo.title
  title_link := photo.url
  image_url := photo.imageUrl
  url := some linkUrl

/-- JS `a || b` on strings: the first operand when truthy (non-empty),
otherwise the second. -/
def jsOr (a b : String) : String :=
  if a ≠ "" then a else b

theorem jsOr_eq_empty (a b : String) : jsOr a b = "" ↔ a = "" ∧ b = "" := by
  rw [jsOr]
  split <;> simp_all

theorem jsOr_ne_empty (a b : String) : jsOr a b ≠ "" ↔ a ≠ "" ∨ b ≠ "" := by
  rw [jsOr]
  split <;> simp_all

/-- The author block: `authorName = photo.owner.name || photo.owner.username`;
when truthy, all three `author_*` keys are assigned together. -/
def addAuthor (photo : FlickrPhoto) (attachment : Attachment) : Attachment :=
  let authorName := jsOr photo.owner.name photo.owner.username
  if authorName ≠ "" then
    { attachment with
      author_name := some authorName
      author_icon := some photo.owner.iconSmall
      author_link := some photo.owner.url }
  else
    attachment

/-- The `fields` array accumulated by the four conditional `push` calls, in
source order: Description, Tags, Taken, Posted.  `fmtUTC` stands for
`ts => new Date(ts).toUTCString()`. -/
def fieldList (fmtUTC : ℕ → String) (photo : FlickrPhoto) : List AField :=
  (if photo.description ≠ "" then [⟨"Description", photo.description⟩] else [])
    ++ (if photo.tags.length > 0 then
          [⟨"Tags", joinSep ", " (photo.tags.map (fun t => t.raw))⟩] else [])
    ++ (if jsTruthyTS photo.takenTS then [⟨"Taken", fmtUTC (photo.takenTS.getD 0)⟩] else [])
    ++ (if jsTruthyTS photo.postTS then [⟨"Posted", fmtUTC (photo.postTS.getD 0)⟩] else [])

/-- `if (fields.length > 0) { attachment.fields = fields; }`. -/
def addFields (fmtUTC : ℕ → String) (photo : FlickrPhoto) (attachment : Attachment) :
    Attachment :=
  let fields := fieldList fmtUTC photo
  if fields.length > 0 then { attachment with fields := some fields } else attachment

/-- `messageAttachmentFromLink` of basic.js (resolved photo record given). -/
def messageAttachmentFromLink (fmtUTC : ℕ → String) (link : SharedLink)
    (photo : FlickrPhoto) : Attachment :=
  addFields fmtUTC photo (addAuthor photo (baseAttachment link.url photo))

theorem addAuthor_fields (photo : FlickrPhoto) (a : Attachment) :
    (addAuthor photo a).fields = a.fields := by
  rw [addAuthor]
  split <;> rfl

/-- **C4.** The basic-unfurl attachment: fields appear only for present,
non-empty photo attributes, in the fixed order Description, Tags, Taken,
Posted; the `fields` key is absent (not an empty list) exactly when all
four attributes are absent/empty; and the author block is all-or-nothing,
present exactly when the owner's name or username is non-empty. -/
theorem messageAttachmentFromLink_fields (fmtUTC : ℕ → String) (link : SharedLink)
    (photo : FlickrPhoto) :
    (((messageAttachmentFromLink fmtUTC link photo).fields.getD []).map (fun f => f.title) =
        (if photo.description ≠ "" then ["Description"] else [])
          ++ (if photo.tags.length > 0 then ["Tags"] else [])
          ++ (if jsTruthyTS photo.takenTS then ["Taken"] else [])
          ++ (if jsTruthyTS photo.postTS then ["Posted"] else [])) ∧
    ((messageAttachmentFromLink fmtUTC link photo).fields = none ↔
        photo.description = "" ∧ photo.tags.length = 0 ∧
          jsTruthyTS photo.takenTS = false ∧ jsTruthyTS photo.postTS = false) ∧
    ((messageAttachmentFromLink fmtUTC link photo).author_name.isSome =
        (messageAttachmentFromLink fmtUTC link photo).author_icon.isSome ∧
      (messageAttachmentFromLink fmtUTC link photo).author_name.isSome =
        (messageAttachmentFromLink fmtUTC link photo).author_link.isSome) ∧
    ((messageAttachmentFromLink fmtUTC link photo).author_name.isSome ↔
        (photo.owner.name ≠ "" ∨ photo.owner.username ≠ "")) := by
  have hfields : (messageAttachmentFromLink fmtUTC link photo).fields =
      (if (fieldList fmtUTC photo).length > 0 then some (fieldList fmtUTC photo) else none) := by
    rw [messageAttachmentFromLink, addFields]
    split
    · rfl
    · rw [addAuthor_fields]
      rfl
  refine ⟨?_, ?_, ?_, ?_⟩
  · rw [hfields]
    by_cases h1 : photo.description ≠ "" <;>
      by_cases h2 : photo.tags.length > 0 <;>
        by_cases h3 : jsTruthyTS photo.takenTS <;>
          by_cases h4 : jsTruthyTS photo.postTS <;>
            simp_all [fieldList]
  · rw [hfields]
    constructor
    · intro h
      by_cases h1 : photo.description ≠ "" <;>
        by_cases h2 : photo.tags.length > 0 <;>
          by_cases h3 : jsTruthyTS photo.takenTS <;>
            by_cases h4 : jsTruthyTS photo.postTS <;>
              simp_all [fieldList]
    · rintro ⟨h1, h2, h3, h4⟩
      rw [if_neg]
      simp [fieldList, h1, h2, h3, h4]
  · rw [messageAttachmentFromLink]
    have hf : ∀ a : Attachment, (addFields fmtUTC photo a).author_name = a.author_name ∧
        (addFields fmtUTC photo a).author_icon = a.author_icon ∧
        (addFields fmtUTC photo a).author_link = a.author_link := by
      intro a
      rw [addFields]
      split <;> exact ⟨rfl, rfl, rfl⟩
    rw [(hf _).1, (hf _).2.1, (hf _).2.2, addAuthor]
    split
    · exact ⟨rfl, rfl⟩
    · exact ⟨rfl, rfl⟩
  · rw [messageAttachmentFromLink]
    have hf : (addFields fmtUTC photo (addAuthor photo (baseAttachment link.url photo))).author_name
        = (addAuthor photo (baseAttachment link.url photo)).author_name := by
      rw [addFields]
      split <;> rfl
    rw [hf, addAuthor]
    split
    · rename_i h
      exact ⟨fun _ => (jsOr_ne_empty _ _).mp h, fun _ => rfl⟩
    · rename_i h
      obtain ⟨h1, h2⟩ := (jsOr_eq_empty _ _).mp (not_not.mp h)
      constructor
      · intro hs
        rw [show (baseAttachment link.url photo).author_name = none from rfl] at hs
        exact absurd hs (by simp)
      · rintro (hc | hc)
        · exact absurd h1 hc
        · exact absurd h2 hc

/-! ### basic.js : the `link_shared` handler's unfurl batch

`keyBy(attachments, 'url')` then `mapValues(unfurls, a => omit(a, 'url'))`.
A JS object is modelled as an association list in key-insertion order;
assigning an existing key replaces its value in place, a new key is
appended. -/

/-- `obj[k] = v` on a JS object. -/
def objSet {α : Type} : List (String × α) → String → α → List (String × α)
  | [], k, v => [(k, v)]
  | (k', v') :: rest, k, v =>
    if k' = k then (k', v) :: rest else (k', v') :: objSet rest k v

/-- lodash `keyBy(attachments, 'url')`. -/
def keyByUrl (atts : List Attachment) : List (String × Attachment) :=
  atts.foldl (fun m a => objSet m (a.url.getD "") a) []

/-- lodash `mapValues`. -/
def mapValues {α β : Type} (f : α → β) (m : List (String × α)) : List (String × β) :=
  m.map (fun kv => (kv.1, f kv.2))

/-- lodash `omit(attachment, 'url')`. -/
def omitUrl (a : Attachment) : Attachment :=
  { a with url := none }

/-- The transmitted unfurl batch of the `link_shared` handler. -/
def buildUnfurls (atts : List Attachment) : List (String × Attachment) :=
  mapValues omitUrl (keyByUrl atts)

/-- Re-keying a list of already-built (url, attachment) pairs. -/
def keyByPairs {α : Type} (pairs : List (String × α)) : List (String × α) :=
  pairs.foldl (fun m kv => objSet m kv.1 kv.2) []

theorem mapValues_objSet {α β : Type} (f : α → β) :
    ∀ (m : List (String × α)) (k : String) (v : α),
      mapValues f (objSet m k v) = objSet (mapValues f m) k (f v) := by
  intro m
  induction m with
  | nil => intro k v; rfl
  | cons kv rest ih =>
    intro k v
    obtain ⟨k', v'⟩ := kv
    by_cases h : k' = k <;> simp [objSet, mapValues, h]
    exact ih k v

theorem mapValues_keyFold {α β : Type} (f : α → β) (key : α → String) :
    ∀ (l : List α) (m : List (String × α)),
      mapValues f (l.foldl (fun m a => objSet m (key a) a) m) =
        (l.map (fun a => (key a, f a))).foldl (fun m kv => objSet m kv.1 kv.2)
          (mapValues f m) := by
  intro l
  induction l with
  | nil => intro m; rfl
  | cons a rest ih =>
    intro m
    rw [List.foldl_cons, List.map_cons, List.foldl_cons, ih, mapValues_objSet]

/-- **C7.** The unfurl batch: every transmitted value has its `url` key
stripped, and re-keying the stripped attachments by their original URLs
rebuilds exactly the same batch mapping. -/
theorem unfurlBatch_spec (atts : List Attachment) (_h : ∀ a ∈ atts, a.url.isSome) :
    (∀ kv ∈ buildUnfurls atts, (kv.2).url = none) ∧
    buildUnfurls atts =
      keyByPairs (atts.map (fun a => (a.url.getD "", omitUrl a))) := by
  constructor
  · intro kv hkv
    rw [buildUnfurls, mapValues] at hkv
    obtain ⟨⟨k, v⟩, _, rfl⟩ := List.mem_map.mp hkv
    rfl
  · rw [buildUnfurls, keyByUrl, keyByPairs, mapValues_keyFold]
    rfl

/-- A concrete attachment for witnesses. -/
def sampleAttachmentA : Attachment where
  fallback := "f1"
  color := "#ff0084"
  title := "t1"
  title_link := "l1"
  image_url := "i1"
  url := some "https://a"

/-- A second concrete attachment for witnesses. -/
def sampleAttachmentB : Attachment where
  fallback := "f2"
  color := "#ff0084"
  title := "t2"
  title_link := "l2"
  image_url := "i2"
  url := some "https://b"

/-- Witness for `unfurlBatch_spec` on two concrete attachments. -/
theorem unfurlBatch_spec_witness :
    (∀ a ∈ [sampleAttachmentA, sampleAttachmentB], a.url.isSome) ∧
    buildUnfurls [sampleAttachmentA, sampleAttachmentB] =
      keyByPairs ([sampleAttachmentA, sampleAttachmentB].map
        (fun a => (a.url.getD "", omitUrl a))) :=
  ⟨by decide, (unfurlBatch_spec [sampleAttachmentA, sampleAttachmentB] (by decide)).2⟩

/-! ### The interactive variants of `messageAttachmentFromLink` -/

/-- The newer (inline-payload) variant's action block: buttons only for
non-empty `photo.sets` / `photo.pools`, each carrying the serialized data
(`JSON.stringify`, a parameter here) as its value; `callback_id` encodes
the interaction name and the photo id separated by a colon.  Both keys are
assigned only when at least one button exists. -/
def addActionsInline (strSets : List FlickrSet → String) (strPools : List FlickrPool → String)
    (photo : FlickrPhoto) (attachment : Attachment) : Attachment :=
  let actions :=
    (if photo.sets.length > 0 then
      [(⟨"Albums", "list_photosets", "button", strSets photo.sets⟩ : AAction)] else [])
    ++ (if photo.pools.length > 0 then
      [(⟨"Groups", "list_pools", "button", strPools photo.pools⟩ : AAction)] else [])
  if actions.length ≠ 0 then
    { attachment with
      callback_id := some ("photo_details:" ++ photo.id)
      actions := some actions }
  else
    attachment

/-- `messageAttachmentFromLink` of the inline-payload interactive variant. -/
def messageAttachmentFromLinkInline (fmtUTC : ℕ → String)
    (strSets : List FlickrSet → String) (strPools : List FlickrPool → String)
    (link : SharedLink) (photo : FlickrPhoto) : Attachment :=
  addActionsInline strSets strPools photo (messageAttachmentFromLink fmtUTC link photo)

/-- The older (fetch-based) variant's action block: `callback_id` and both
buttons are attached unconditionally, each button carrying the photo id. -/
def addActionsAlways (photo : FlickrPhoto) (attachment : Attachment) : Attachment :=
  { attachment with
    callback_id := some "photo_details"
    actions := some [⟨"Albums", "list_photosets", "button", photo.id⟩,
                     ⟨"Groups", "list_pools", "button", photo.id⟩] }

/-- `messageAttachmentFromLink` of the fetch-based interactive variant. -/
def messageAttachmentFromLinkFetch (fmtUTC : ℕ → String) (link : SharedLink)
    (photo : FlickrPhoto) : Attachment :=
  addActionsAlways photo (messageAttachmentFromLink fmtUTC link photo)

theorem mafl_actions_none (fmtUTC : ℕ → String) (link : SharedLink) (photo : FlickrPhoto) :
    (messageAttachmentFromLink fmtUTC link photo).actions = none ∧
      (messageAttachmentFromLink fmtUTC link photo).callback_id = none := by
  rw [messageAttachmentFromLink, addFields]
  have ha : ∀ a : Attachment, (addAuthor photo a).actions = a.actions ∧
      (addAuthor photo a).callback_id = a.callback_id := by
    intro a
    rw [addAuthor]
    split <;> exact ⟨rfl, rfl⟩
  split
  · exact ⟨(ha _).1, (ha _).2⟩
  · exact ⟨(ha _).1, (ha _).2⟩

/-- **C5 (amended).** In the inline-payload variant the actions/callback_id
pair is present exactly when albums or groups are non-empty; both keys are
absent exactly when both collections are empty.  (The fetch-based variant
instead attaches the pair unconditionally — see
`fetch_actions_always_counterexample`.) -/
theorem inline_actions_iff (fmtUTC : ℕ → String)
    (strSets : List FlickrSet → String) (strPools : List FlickrPool → String)
    (link : SharedLink) (photo : FlickrPhoto) :
    ((messageAttachmentFromLinkInline fmtUTC strSets strPools link photo).actions = none ∧
      (messageAttachmentFromLinkInline fmtUTC strSets strPools link photo).callback_id = none)
      ↔ (photo.sets = [] ∧ photo.pools = []) := by
  rw [messageAttachmentFromLinkInline, addActionsInline]
  by_cases hs : photo.sets = [] <;> by_cases hp : photo.pools = []
  · simp [hs, hp, (mafl_actions_none fmtUTC link photo).1,
      (mafl_actions_none fmtUTC link photo).2]
  · simp [hs, hp, List.length_pos.mpr hp]
  · simp [hs, hp, List.length_pos.mpr hs]
  · simp [hs, hp, List.length_pos.mpr hs, List.length_pos.mpr hp]

/-- **C5 (counterexample to the claim as stated).** The fetch-based
variant's pipeline, on a photo record with empty albums and empty groups,
still attaches both `actions` and `callback_id`. -/
theorem fetch_actions_always_counterexample :
    (messageAttachmentFromLinkFetch (fun _ => "") ⟨"u"⟩
        ⟨"1", "T", "", ⟨"", "", "", ""⟩, [], none, none, "pu", "iu", [], []⟩).actions =
      some [⟨"Albums", "list_photosets", "button", "1"⟩,
            ⟨"Groups", "list_pools", "button", "1"⟩] ∧
    (messageAttachmentFromLinkFetch (fun _ => "") ⟨"u"⟩
        ⟨"1", "T", "", ⟨"", "", "", ""⟩, [], none, none, "pu", "iu", [], []⟩).callback_id =
      some "photo_details" := by
  constructor <;> rfl

/-! ### JS `String.prototype.split` on a one-character separator -/

/-- Split of a character list at every occurrence of `sep` (JS
`split(':')` semantics: always at least one piece, empty pieces kept). -/
def splitChar (sep : Char) : List Char → List (List Char)
  | [] => [[]]
  | c :: rest =>
    match splitChar sep rest with
    | [] => [[]]
    | h :: t => if c = sep then [] :: h :: t else (c :: h) :: t

/-- JS `s.split(sep)` for a one-character separator. -/
def jsSplit (sep : Char) (s : String) : List String :=
  (splitChar sep s.data).map (fun cs => String.mk cs)

theorem splitChar_ne_nil (sep : Char) : ∀ l : List Char, splitChar sep l ≠ [] := by
  intro l
  cases l with
  | nil => simp [splitChar]
  | cons c rest =>
    rw [splitChar]
    cases h : splitChar sep rest with
    | nil => simp
    | cons a t => by_cases hc : c = sep <;> simp [hc]

theorem splitChar_no_sep (sep : Char) :
    ∀ l : List Char, sep ∉ l → splitChar sep l = [l] := by
  intro l
  induction l with
  | nil => intro _; rfl
  | cons c rest ih =>
    intro h
    have hc : c ≠ sep := by
      intro hc
      exact h (by rw [hc]; exact List.mem_cons_self sep rest)
    rw [splitChar, ih (fun hm => h (List.mem_cons_of_mem c hm))]
    simp [hc]

theorem splitChar_sep_append (sep : Char) :
    ∀ (a b : List Char), sep ∉ a →
      splitChar sep (a ++ sep :: b) = a :: splitChar sep b := by
  intro a
  induction a with
  | nil =>
    intro b _
    rw [List.nil_append, splitChar]
    cases h : splitChar sep b with
    | nil => exact absurd h (splitChar_ne_nil sep b)
    | cons x t => simp
  | cons c rest ih =>
    intro b h
    have hc : c ≠ sep := by
      intro hc
      exact h (by rw [hc]; exact List.mem_cons_self sep rest)
    rw [List.cons_append, splitChar, ih b (fun hm => h (List.mem_cons_of_mem c hm))]
    simp [hc]

theorem string_mk_data (s : String) : String.mk s.data = s := by
  cases s
  rfl

/-- **C6.** Round-trip of the interaction identifier: whenever the
inline-payload pipeline attaches actions, the attachment's `callback_id`
is `"photo_details"` and the photo id joined by a colon, and the handler's
decoding — `callback_id.split(':')`, first segment the interaction family,
remainder the photo id — recovers exactly `"photo_details"` and the
original id (photo ids contain no colon). -/
theorem callbackId_roundtrip (fmtUTC : ℕ → String)
    (strSets : List FlickrSet → String) (strPools : List FlickrPool → String)
    (link : SharedLink) (photo : FlickrPhoto)
    (hcolon : ':' ∉ photo.id.data) (hacts : photo.sets ≠ [] ∨ photo.pools ≠ []) :
    (messageAttachmentFromLinkInline fmtUTC strSets strPools link photo).callback_id =
      some ("photo_details:" ++ photo.id) ∧
    jsSplit ':' ("photo_details:" ++ photo.id) = ["photo_details", photo.id] := by
  constructor
  · rw [messageAttachmentFromLinkInline, addActionsInline]
    rcases hacts with hs | hp
    · rw [if_pos]
      simp [List.length_pos.mpr hs, List.length_append]
    · rw [if_pos]
      simp [List.length_pos.mpr hp, List.length_append]
  · rw [jsSplit]
    have h1 : ("photo_details:" ++ photo.id).data =
        "photo_details".data ++ ':' :: photo.id.data := by
      rw [String.data_append,
        show ("photo_details:").data = "photo_details".data ++ [':'] by decide,
        List.append_assoc]
      rfl
    rw [h1, splitChar_sep_append ':' _ _ (by decide),
      splitChar_no_sep ':' _ hcolon, List.map_cons, List.map_cons, List.map_nil,
      string_mk_data, string_mk_data]

/-- Witness for `callbackId_roundtrip` at the concrete photo id `"123"`
with one album. -/
theorem callbackId_roundtrip_witness :
    (messageAttachmentFromLinkInline (fun _ => "") (fun _ => "[]") (fun _ => "[]") ⟨"u"⟩
        ⟨"123", "T", "", ⟨"", "", "", ""⟩, [], none, none, "pu", "iu",
          [⟨"Album", "au"⟩], []⟩).callback_id = some "photo_details:123" ∧
    jsSplit ':' "photo_details:123" = ["photo_details", "123"] := by
  have h := callbackId_roundtrip (fun _ => "") (fun _ => "[]") (fun _ => "[]") ⟨"u"⟩
    ⟨"123", "T", "", ⟨"", "", "", ""⟩, [], none, none, "pu", "iu", [⟨"Album", "au"⟩], []⟩
    (by decide) (Or.inl (List.cons_ne_nil _ _))
  exact h

/-! ### The interactive-message endpoint

Both variants of `handleInteractiveMessages` / `handlePhotoDetailsInteraction`.
The inbound wire payload's `original_message.attachments[0]` and
`payload.actions[0]` are modelled as required fields (Slack always sends
the message's attachment and the pressed action); the top-level
`JSON.parse(req.body.payload)` is modelled by handing the handler an
`Option`al already-parsed payload, `none` for a parse failure. -/

/-- The decoded interactive-callback payload. -/
structure InteractionPayload where
  token : String
  callback_id : String
  action : AAction
  originalAttachment : Attachment
deriving DecidableEq

/-- The HTTP outcome of one request: `status n` is `res.sendStatus(n)`,
`send a` is `res.send(a)` (HTTP 200 with a JSON body), `noResponse` means
the handler returned without ever responding, `fault` an uncaught
exception escaping the handler. -/
inductive HttpOutcome where
  | status (n : ℕ)
  | send (body : Attachment)
  | noResponse
  | fault
deriving DecidableEq

/-! #### The inline-payload variant -/

/-- The single argument the inline variant's `handlePhotoDetailsInteraction`
passes to `done` (it never passes a second one). -/
inductive Done01 where
  | parseError
  | body (attachments : List Attachment)
deriving DecidableEq

/-- Outcome of running the inline variant's `handlePhotoDetailsInteraction`:
`threw` models the uncaught TypeError of `attachment.fields.filter(...)`
when the original attachment has no `fields` key; `ret d` is a normal
return with `d` the argument of the (at most one) `done` call, `none` when
`done` was never invoked (the switch's empty `default`). -/
inductive Run01 where
  | threw
  | ret (d : Option Done01)
deriving DecidableEq

/-- `handlePhotoDetailsInteraction` of the inline-payload variant.
`parseSets` / `parsePools` stand for `JSON.parse(action.value)`, `none`
being a parse throw.  Note the `list_pools` branch filters out fields
titled `"Groups"` but pushes a field titled `"groups"`. -/
def handlePhotoDetailsInteraction01
    (parseSets : String → Option (List FlickrSet))
    (parsePools : String → Option (List FlickrPool))
    (payload : InteractionPayload) : Run01 :=
  let attachment := payload.originalAttachment
  let action := payload.action
  if action.name = "list_photosets" then
    match parseSets action.value with
    | none => .ret (some .parseError)
    | some photoSets =>
      match attachment.fields with
      | none => .threw
      | some fs =>
        let fields := fs.filter (fun f => f.title != "Albums") ++
          [⟨"Albums", joinSep "\n" (photoSets.map (fun s => "* " ++ s.title))⟩]
        .ret (some (.body [{ attachment with fields := some fields }]))
  else if action.name = "list_pools" then
    match parsePools action.value with
    | none => .ret (some .parseError)
    | some photoPools =>
      match attachment.fields with
      | none => .threw
      | some fs =>
        let fields := fs.filter (fun f => f.title != "Groups") ++
          [⟨"groups", joinSep "\n" (photoPools.map (fun s => "* " ++ s.title))⟩]
        .ret (some (.body [{ attachment with fields := some fields }]))
  else
    .ret none

/-- `handleInteractiveMessages` of the inline-payload variant.  The
completion handler is `callback(error, body)`; the photo-details handler
always calls `done` with a single argument, so whatever it passes (a parse
error or the success body) lands in the truthy `error` position and the
response is `sendStatus(500)`; when `done` is never called no response is
sent at all. -/
def handleInteractiveMessages01 (secret : String)
    (parseSets : String → Option (List FlickrSet))
    (parsePools : String → Option (List FlickrPool))
    (body : Option InteractionPayload) : HttpOutcome :=
  match body with
  | none => .status 400
  | some payload =>
    if payload.token = "" ∨ payload.token ≠ secret then .status 404
    else
      match jsSplit ':' payload.callback_id with
      | [] => .noResponse
      | interactionType :: _ =>
        if interactionType = "photo_details" then
          match handlePhotoDetailsInteraction01 parseSets parsePools payload with
          | .threw => .fault
          | .ret none => .noResponse
          | .ret (some _) => .status 500
        else
          .noResponse

/-! #### The fetch-based variant -/

/-- `cloneAndCleanAttachment` of lib/common.js: `pick` of the listed keys
(this embedding's `Attachment` has exactly those keys), with each action
re-picked to its `text`/`name`/`type`/`value`. -/
def cloneAndCleanAttachment (attachment : Attachment) : Attachment where
  fallback := attachment.fallback
  color := attachment.color
  title := attachment.title
  title_link := attachment.title_link
  image_url := attachment.image_url
  url := attachment.url
  author_name := attachment.author_name
  author_icon := attachment.author_icon
  author_link := attachment.author_link
  fields := attachment.fields
  callback_id := attachment.callback_id
  actions := attachment.actions.map
    (fun acts => acts.map (fun c => ⟨c.text, c.name, c.type, c.value⟩))

/-- The `(error, body)` pair semantics of the fetch-based variant's `done`. -/
inductive Done00 where
  | err
  | ok (body : Attachment)
deriving DecidableEq

/-- `:small_blue_diamond:`-bulleted, newline-joined album links. -/
def albumBullets (photoSets : List FlickrSet) : String :=
  joinSep "\n" (photoSets.map
    (fun s => ":small_blue_diamond: <" ++ s.url ++ "|" ++ s.title ++ ">"))

/-- The Albums field's value: the bullet list, or the fixed sentence for an
empty collection. -/
def albumsFieldValue (photoSets : List FlickrSet) : String :=
  if photoSets.length > 0 then albumBullets photoSets
  else "This photo is not in any albums"

/-- `:small_blue_diamond:`-bulleted, newline-joined group links. -/
def groupBullets (photoPools : List FlickrPool) : String :=
  joinSep "\n" (photoPools.map
    (fun s => ":small_blue_diamond: <" ++ s.url ++ "|" ++ s.title ++ ">"))

/-- The Groups field's value: the bullet list, or the fixed sentence for an
empty collection. -/
def groupsFieldValue (photoPools : List FlickrPool) : String :=
  if photoPools.length > 0 then groupBullets photoPools
  else "This photo is not in any groups"

/-- `handlePhotoDetailsInteraction` of the fetch-based variant.
`fetchSets` / `fetchPools` stand for `getFlickrPhotoSets` /
`getFlickrPhotoPools`; a promise rejection (`Except.error`) flows through
`.catch(done)`.  Every branch, the unhandled-action default included,
invokes `done`. -/
def handlePhotoDetailsInteraction00
    (fetchSets : String → Except String (List FlickrSet))
    (fetchPools : String → Except String (List FlickrPool))
    (payload : InteractionPayload) : Done00 :=
  let attachment := cloneAndCleanAttachment payload.originalAttachment
  let action := payload.action
  if action.name = "list_photosets" then
    match fetchSets action.value with
    | .error _ => .err
    | .ok photoSets =>
      let fields := (match attachment.fields with
          | some fs => fs.filter (fun f => f.title != "Albums")
          | none => []) ++
        [⟨"Albums", albumsFieldValue photoSets⟩]
      .ok { attachment with fields := some fields }
  else if action.name = "list_pools" then
    match fetchPools action.value with
    | .error _ => .err
    | .ok photoPools =>
      let fields := (match attachment.fields with
          | some fs => fs.filter (fun f => f.title != "Groups")
          | none => []) ++
        [⟨"Groups", groupsFieldValue photoPools⟩]
      .ok { attachment with fields := some fields }
  else
    .err

/-- `handleInteractiveMessages` of the fetch-based variant: dispatch on the
whole `callback_id`, unknown identifiers error out through the callback
(`callback(new Error(...))` → `sendStatus(500)`), success bodies are sent
as the 200 response. -/
def handleInteractiveMessages00 (secret : String)
    (fetchSets : String → Except String (List FlickrSet))
    (fetchPools : String → Except String (List FlickrPool))
    (body : Option InteractionPayload) : HttpOutcome :=
  match body with
  | none => .status 400
  | some payload =>
    if payload.token = "" ∨ payload.token ≠ secret then .status 404
    else if payload.callback_id = "photo_details" then
      match handlePhotoDetailsInteraction00 fetchSets fetchPools payload with
      | .err => .status 500
      | .ok a => .send a
    else
      .status 500

/-! ### Claims about the interactive endpoint -/

/-- **C2 (divergence at the failing input).** Inline variant: a malformed
body yields 400 and a wrong token 404 as claimed, but a fully valid
payload with a recognized action (`list_photosets`, parsable value,
original attachment with a fields array) yields HTTP **500**, not 200: the
photo-details handler passes its success body as the callback's `error`
argument. -/
theorem inline_success_responds_500 :
    handleInteractiveMessages01 "tok" (fun _ => some [⟨"Album", "au"⟩]) (fun _ => some [])
        none = .status 400 ∧
    handleInteractiveMessages01 "tok" (fun _ => some [⟨"Album", "au"⟩]) (fun _ => some [])
        (some ⟨"bad", "photo_details:1", ⟨"Albums", "list_photosets", "button", "[]"⟩,
          { sampleAttachmentA with fields := some [] }⟩) = .status 404 ∧
    handleInteractiveMessages01 "tok" (fun _ => some [⟨"Album", "au"⟩]) (fun _ => some [])
        (some ⟨"tok", "photo_details:1", ⟨"Albums", "list_photosets", "button", "[]"⟩,
          { sampleAttachmentA with fields := some [] }⟩) = .status 500 := by
  refine ⟨rfl, by decide, by decide⟩

/-- **C3 (divergence at the failing input).** Inline variant: pressing
`list_pools` twice on the same attachment.  The branch filters out fields
titled `"Groups"` but pushes a field titled `"groups"`, so the second
press leaves two `"groups"` fields (and no `"Groups"` field at all). -/
theorem inline_groups_double_press_duplicates :
    handlePhotoDetailsInteraction01 (fun _ => some []) (fun _ => some [⟨"G1", "gu"⟩])
        ⟨"tok", "photo_details:1", ⟨"Groups", "list_pools", "button", "x"⟩,
          { sampleAttachmentA with fields := some [] }⟩ =
      .ret (some (.body [{ sampleAttachmentA with fields := some [⟨"groups", "* G1"⟩] }])) ∧
    handlePhotoDetailsInteraction01 (fun _ => some []) (fun _ => some [⟨"G1", "gu"⟩])
        ⟨"tok", "photo_details:1", ⟨"Groups", "list_pools", "button", "x"⟩,
          { sampleAttachmentA with fields := some [⟨"groups", "* G1"⟩] }⟩ =
      .ret (some (.body [{ sampleAttachmentA with
        fields := some [⟨"groups", "* G1"⟩, ⟨"groups", "* G1"⟩] }])) ∧
    ([(⟨"groups", "* G1"⟩ : AField), ⟨"groups", "* G1"⟩].countP
      (fun f => f.title == "groups")) = 2 ∧
    ([(⟨"groups", "* G1"⟩ : AField), ⟨"groups", "* G1"⟩].countP
      (fun f => f.title == "Groups")) = 0 := by
  refine ⟨by decide, by decide, by decide, by decide⟩

/-- **C8 (amended).** Fetch-based variant: with a valid token, an unknown
interaction family (callback_id) terminates the request with HTTP 500, and
an action key other than the two recognized ones (`list_photosets`,
`list_pools`) makes the photo-details handler report an error and the
request terminate with HTTP 500. -/
theorem fetch_unrecognized_dispatch (secret : String)
    (fetchSets : String → Except String (List FlickrSet))
    (fetchPools : String → Except String (List FlickrPool))
    (payload : InteractionPayload)
    (htok : payload.token ≠ "" ∧ payload.token = secret) :
    (payload.callback_id ≠ "photo_details" →
      handleInteractiveMessages00 secret fetchSets fetchPools (some payload) = .status 500) ∧
    (payload.action.name ≠ "list_photosets" → payload.action.name ≠ "list_pools" →
      handlePhotoDetailsInteraction00 fetchSets fetchPools payload = .err ∧
      handleInteractiveMessages00 secret fetchSets fetchPools (some payload) =
        .status 500) := by
  have hcond : ¬(payload.token = "" ∨ payload.token ≠ secret) := by
    rintro (h | h)
    · exact htok.1 h
    · exact h htok.2
  constructor
  · intro hcb
    simp only [handleInteractiveMessages00]
    rw [if_neg hcond, if_neg hcb]
  · intro h1 h2
    have he : handlePhotoDetailsInteraction00 fetchSets fetchPools payload = .err := by
      simp only [handlePhotoDetailsInteraction00]
      rw [if_neg h1, if_neg h2]
    refine ⟨he, ?_⟩
    simp only [handleInteractiveMessages00]
    rw [if_neg hcond]
    by_cases hcb : payload.callback_id = "photo_details"
    · rw [if_pos hcb, he]
    · rw [if_neg hcb]

/-- Witness for `fetch_unrecognized_dispatch`: a valid-token payload with
callback_id `"something_else"` and action key `"bogus"`. -/
theorem fetch_unrecognized_dispatch_witness :
    handleInteractiveMessages00 "tok" (fun _ => .ok []) (fun _ => .ok [])
      (some ⟨"tok", "something_else", ⟨"X", "bogus", "button", "v"⟩, sampleAttachmentA⟩) =
      .status 500 ∧
    handlePhotoDetailsInteraction00 (fun _ => .ok []) (fun _ => .ok [])
      ⟨"tok", "photo_details", ⟨"X", "bogus", "button", "v"⟩, sampleAttachmentA⟩ = .err := by
  constructor
  · exact (fetch_unrecognized_dispatch "tok" (fun _ => .ok []) (fun _ => .ok [])
      ⟨"tok", "something_else", ⟨"X", "bogus", "button", "v"⟩, sampleAttachmentA⟩
      ⟨by decide, rfl⟩).1 (by decide)
  · exact ((fetch_unrecognized_dispatch "tok" (fun _ => .ok []) (fun _ => .ok [])
      ⟨"tok", "photo_details", ⟨"X", "bogus", "button", "v"⟩, sampleAttachmentA⟩
      ⟨by decide, rfl⟩).2 (by decide) (by decide)).1

/-- **C8 (counterexample to the claim as stated).** Inline variant: an
unrecognized action key, and likewise an unknown interaction family, make
the handler return without sending any response at all — the request is
left pending, not terminated with a generic failure response. -/
theorem inline_unrecognized_no_response :
    handleInteractiveMessages01 "tok" (fun _ => some []) (fun _ => some [])
        (some ⟨"tok", "photo_details:1", ⟨"X", "bogus", "button", "v"⟩,
          sampleAttachmentA⟩) = .noResponse ∧
    handleInteractiveMessages01 "tok" (fun _ => some []) (fun _ => some [])
        (some ⟨"tok", "other_family:1", ⟨"Albums", "list_photosets", "button", "v"⟩,
          sampleAttachmentA⟩) = .noResponse := by
  refine ⟨by decide, by decide⟩

theorem joinSep_length (sep a : String) (l : List String) :
    a.length ≤ (joinSep sep (a :: l)).length := by
  cases l with
  | nil => rw [joinSep]
  | cons b t =>
    rw [joinSep, String.length_append, String.length_append]
    omega

theorem albumsFieldValue_ne_empty (l : List FlickrSet) : albumsFieldValue l ≠ "" := by
  rw [albumsFieldValue]
  split
  · rename_i h
    cases l with
    | nil => simp at h
    | cons s t =>
      intro he
      have h1 : (":small_blue_diamond: <" ++ s.url ++ "|" ++ s.title ++ ">").length ≤
          (albumBullets (s :: t)).length := by
        rw [albumBullets, List.map_cons]
        exact joinSep_length _ _ _
      rw [he] at h1
      have h2 : 0 < (":small_blue_diamond: <" ++ s.url ++ "|" ++ s.title ++ ">").length := by
        rw [String.length_append, String.length_append, String.length_append,
          String.length_append]
        have h3 : (":small_blue_diamond: <").length = 22 := rfl
        omega
      have h0 : ("" : String).length = 0 := rfl
      omega
  · intro he
    exact absurd he (by decide)

theorem groupsFieldValue_ne_empty (l : List FlickrPool) : groupsFieldValue l ≠ "" := by
  rw [groupsFieldValue]
  split
  · rename_i h
    cases l with
    | nil => simp at h
    | cons s t =>
      intro he
      have h1 : (":small_blue_diamond: <" ++ s.url ++ "|" ++ s.title ++ ">").length ≤
          (groupBullets (s :: t)).length := by
        rw [groupBullets, List.map_cons]
        exact joinSep_length _ _ _
      rw [he] at h1
      have h2 : 0 < (":small_blue_diamond: <" ++ s.url ++ "|" ++ s.title ++ ">").length := by
        rw [String.length_append, String.length_append, String.length_append,
          String.length_append]
        have h3 : (":small_blue_diamond: <").length = 22 := rfl
        omega
      have h0 : ("" : String).length = 0 := rfl
      omega
  · intro he
    exact absurd he (by decide)

/-- **C9 (amended).** Fetch-based variant: for each recognized action the
handler appends one field — `"Albums"` (resp. `"Groups"`) — whose value is
the newline-joined bullet list of the fetched collection's entries when
the collection is non-empty and the fixed "none found" sentence when it is
empty, and that value is never the empty string.  (The inline variant
renders the plain bullet join, which *is* empty for an empty collection —
see `inline_empty_collection_empty_value`.) -/
theorem fetch_field_value_rendering
    (fetchSets : String → Except String (List FlickrSet))
    (fetchPools : String → Except String (List FlickrPool))
    (payload : InteractionPayload) :
    (∀ l, payload.action.name = "list_photosets" →
      fetchSets payload.action.value = .ok l →
      (∃ a pre, handlePhotoDetailsInteraction00 fetchSets fetchPools payload = .ok a ∧
        a.fields = some (pre ++ [⟨"Albums", albumsFieldValue l⟩])) ∧
      (l = [] → albumsFieldValue l = "This photo is not in any albums") ∧
      (l ≠ [] → albumsFieldValue l = albumBullets l) ∧
      albumsFieldValue l ≠ "") ∧
    (∀ l, payload.action.name = "list_pools" →
      fetchPools payload.action.value = .ok l →
      (∃ a pre, handlePhotoDetailsInteraction00 fetchSets fetchPools payload = .ok a ∧
        a.fields = some (pre ++ [⟨"Groups", groupsFieldValue l⟩])) ∧
      (l = [] → groupsFieldValue l = "This photo is not in any groups") ∧
      (l ≠ [] → groupsFieldValue l = groupBullets l) ∧
      groupsFieldValue l ≠ "") := by
  constructor
  · intro l hname hfetch
    have hrun : handlePhotoDetailsInteraction00 fetchSets fetchPools payload =
        .ok { cloneAndCleanAttachment payload.originalAttachment with
          fields := some
            ((match (cloneAndCleanAttachment payload.originalAttachment).fields with
              | some fs => fs.filter (fun f => f.title != "Albums")
              | none => []) ++ [⟨"Albums", albumsFieldValue l⟩]) } := by
      simp only [handlePhotoDetailsInteraction00]
      rw [if_pos hname, hfetch]
    refine ⟨⟨_, _, hrun, rfl⟩, ?_, ?_, albumsFieldValue_ne_empty l⟩
    · intro hl
      rw [albumsFieldValue, hl]
      rfl
    · intro hl
      rw [albumsFieldValue, if_pos (List.length_pos.mpr hl)]
  · intro l hname hfetch
    have hname' : payload.action.name ≠ "list_photosets" := by
      rw [hname]
      decide
    have hrun : handlePhotoDetailsInteraction00 fetchSets fetchPools payload =
        .ok { cloneAndCleanAttachment payload.originalAttachment with
          fields := some
            ((match (cloneAndCleanAttachment payload.originalAttachment).fields with
              | some fs => fs.filter (fun f => f.title != "Groups")
              | none => []) ++ [⟨"Groups", groupsFieldValue l⟩]) } := by
      simp only [handlePhotoDetailsInteraction00]
      rw [if_neg hname', if_pos hname, hfetch]
    refine ⟨⟨_, _, hrun, rfl⟩, ?_, ?_, groupsFieldValue_ne_empty l⟩
    · intro hl
      rw [groupsFieldValue, hl]
      rfl
    · intro hl
      rw [groupsFieldValue, if_pos (List.length_pos.mpr hl)]

/-- Witness for `fetch_field_value_rendering`: `list_photosets` pressed
with an empty fetched album list yields the fixed sentence. -/
theorem fetch_field_value_rendering_witness :
    ∃ a pre, handlePhotoDetailsInteraction00 (fun _ => .ok []) (fun _ => .ok [])
        ⟨"tok", "photo_details", ⟨"Albums", "list_photosets", "button", "1"⟩,
          sampleAttachmentA⟩ = .ok a ∧
      a.fields = some (pre ++ [⟨"Albums", albumsFieldValue []⟩]) :=
  ((fetch_field_value_rendering (fun _ => .ok []) (fun _ => .ok [])
    ⟨"tok", "photo_details", ⟨"Albums", "list_photosets", "button", "1"⟩,
      sampleAttachmentA⟩).1 [] rfl rfl).1

/-- **C9 (counterexample to the claim as stated).** Inline variant: a
recognized action whose parsed collection is empty renders the field value
as the bullet join of nothing — the empty string, not a "none found"
sentence. -/
theorem inline_empty_collection_empty_value :
    handlePhotoDetailsInteraction01 (fun _ => some []) (fun _ => some [])
        ⟨"tok", "photo_details:1", ⟨"Albums", "list_photosets", "button", "[]"⟩,
          { sampleAttachmentA with fields := some [] }⟩ =
      .ret (some (.body [{ sampleAttachmentA with fields := some [⟨"Albums", ""⟩] }])) := by
  decide

end Unfurls
